import Mathlib

/-!
Shallow embedding of the bionic excerpt:
  * src/libc/bionic/pthread_setname_np.cpp  (the thread rename wrapper)
  * src/libc/kernel/common/linux/ioprio.h   (the ioprio macro vocabulary)

The syscall layer (prctl, open, write, close) is represented by an
environment `Env` that fixes the outcome of each syscall the function may
issue, and the function is embedded as a pure function from that
environment, the arguments and the entry value of errno to an optional
`CallResult` (return value, final errno, and the trace of syscalls
issued).  `none` is returned only when the modelled write-retry loop is
not given enough outcomes to terminate.
-/

namespace Bionic

/-- Linux errno value EINVAL (invalid argument). -/
def EINVAL : Nat := 22

/-- Linux errno value ERANGE (result too large; name too long here). -/
def ERANGE : Nat := 34

/-- Linux errno value EINTR (interrupted system call). -/
def EINTR : Nat := 4

/-- Linux errno value EIO (generic I/O error). -/
def EIO : Nat := 5

/-- open(2) flag O_RDWR. -/
def O_RDWR : Nat := 2

/-- prctl(2) option PR_SET_NAME. -/
def PR_SET_NAME : Nat := 15

/-- MAX_TASK_COMM_LEN from pthread_setname_np.cpp line 42: the kernel comm
name limit, not exported by kernel headers. -/
def MAX_TASK_COMM_LEN : Nat := 16

/-- TASK_COMM_FMT from pthread_setname_np.cpp line 43. -/
def TASK_COMM_FMT : String := "/proc/self/task/%u/comm"

/-- The path produced at line 65 by
snprintf(comm_name, sizeof(comm_name), TASK_COMM_FMT, (unsigned int) t->kernel_id).
The buffer is sizeof(TASK_COMM_FMT) + 8 = 32 bytes and the longest expansion
is 16 + 10 + 5 + 1 = 32 bytes, so snprintf never truncates and the result is
the format string with the conversion replaced by the decimal form of the id
cast to unsigned int (hence the reduction modulo 2^32). -/
def comm_name_of (kernel_id : Nat) : String :=
  "/proc/self/task/" ++ toString (kernel_id % 2 ^ 32) ++ "/comm"

/-- One syscall issued by pthread_setname_np, as recorded in the trace. -/
inductive Event where
  | prctl (option : Nat) (name : String)
  | openFile (path : String) (flags : Nat)
  | write (fd : Nat) (bytes : String) (count : Nat)
  | close (fd : Nat)
  deriving DecidableEq

/-- True exactly on openFile events. -/
def Event.isOpen : Event → Bool
  | .openFile _ _ => true
  | _ => false

/-- The syscall environment of one call: the calling thread's own handle
(pthread_self()), the target thread's kernel id (the field t->kernel_id of
pthread_internal_t; pthread_internal.h is not part of this excerpt, so the
id is taken as given), and the outcome the kernel would give to each
syscall.  For prctl and open, `some e` / `Except.error e` means the syscall
returns -1 and sets errno to e; for write, the list gives the outcome of
each successive attempt. -/
structure Env where
  self : Nat
  kernel_id : Nat
  prctl_result : Option Nat
  open_result : String → Except Nat Nat
  write_results : List (Except Nat Nat)

/-- Result of a call: the int return value (0 or an errno code), the value
of the caller-visible errno after the call, and the syscall trace. -/
structure CallResult where
  ret : Nat
  errno : Nat
  events : List Event
  deriving DecidableEq

/-- Modelled from the spec: the TEMP_FAILURE_RETRY macro applied at line 70
to write(fd, thread_name, thread_name_len).  The macro itself lives in
libc's unistd.h, which is not part of this excerpt; the spec describes it as
"retrying the write automatically if interrupted by a signal", i.e. the
write is re-issued as long as it fails with errno EINTR, and any other
outcome ends the loop.  Each attempt consumes one entry of the attempt list
and records one write event; a failing attempt sets errno to its error
code.  `none` means the given outcomes do not make the loop terminate. -/
def write_retry_loop (fd : Nat) (name : String) (len : Nat) :
    List (Except Nat Nat) → Nat → Option (Int × Nat × List Event)
  | [], _ => none
  | Except.ok n :: _, errno => some ((n : Int), errno, [Event.write fd name len])
  | Except.error e :: rest, _ =>
    if e = EINTR then
      (write_retry_loop fd name len rest e).map
        (fun r => (r.1, r.2.1, Event.write fd name len :: r.2.2))
    else some (-1, e, [Event.write fd name len])

/-- Lines 58-78 of pthread_setname_np.cpp: the code after the argument and
length checks.  Renaming self is prctl(PR_SET_NAME, thread_name, 0, 0, 0),
returning errno on failure and 0 on success.  Renaming another thread opens
comm_name_of kernel_id read-write (returning errno if the open fails),
writes thread_name_len bytes of the name under TEMP_FAILURE_RETRY, closes
the fd, and returns errno if the write failed, EIO if it wrote fewer bytes
than asked, else 0. -/
def do_rename (env : Env) (thread : Nat) (name : String) (errno : Nat) :
    Option CallResult :=
  if thread = env.self then
    match env.prctl_result with
    | none => some ⟨0, errno, [Event.prctl PR_SET_NAME name]⟩
    | some e => some ⟨e, e, [Event.prctl PR_SET_NAME name]⟩
  else
    let path := comm_name_of env.kernel_id
    match env.open_result path with
    | Except.error e => some ⟨e, e, [Event.openFile path O_RDWR]⟩
    | Except.ok fd =>
      match write_retry_loop fd name name.length env.write_results errno with
      | none => none
      | some (n, errno2, wevents) =>
        let events := Event.openFile path O_RDWR :: (wevents ++ [Event.close fd])
        if n < 0 then some ⟨errno2, errno2, events⟩
        else if n.toNat ≠ name.length then some ⟨ EIO, errno2, events⟩
        else some ⟨0, errno2, events⟩

/-- Lines 48-56 of pthread_setname_np.cpp: the argument check
(thread == 0 || thread_name == NULL gives EINVAL) and the length check
(strlen(thread_name) >= MAX_TASK_COMM_LEN gives ERANGE), then `do_rename`.
The name is a C string, modelled as `Option String` (none is NULL); strlen
is its length. -/
def pthread_setname_np_body (env : Env) (thread : Nat)
    (thread_name : Option String) (errno : Nat) : Option CallResult :=
  if thread = 0 ∨ thread_name = none then some ⟨ EINVAL, errno, []⟩
  else
    let name := thread_name.getD ""
    if name.length ≥ MAX_TASK_COMM_LEN then some ⟨ ERANGE, errno, []⟩
    else do_rename env thread name errno

/-- Modelled from the spec: ErrnoRestorer (private/ErrnoRestorer.h, not part
of this excerpt) is the RAII object declared at line 46; it records errno on
construction and writes that value back on destruction, i.e. at every return
of the function, so errors reach the caller only through the return value
("returned synchronously to the caller"). -/
def with_errno_restorer (errno : Nat) (body : Nat → Option CallResult) :
    Option CallResult :=
  (body errno).map (fun r => ⟨r.ret, errno, r.events⟩)

/-- The whole of pthread_setname_np: the body runs with the entry errno and
the ErrnoRestorer puts the entry errno back at return. -/
def pthread_setname_np (env : Env) (thread : Nat)
    (thread_name : Option String) (errno : Nat) : Option CallResult :=
  with_errno_restorer errno (pthread_setname_np_body env thread thread_name)

/-! ioprio.h (src/libc/kernel/common/linux/ioprio.h).  The macros operate on
kernel ioprio words; arithmetic is on Nat, the values involved (16-bit
ioprio words, 3-bit classes, 13-bit data) being far below any machine
width at which C truncation could differ. -/

/-- IOPRIO_BITS from ioprio.h. -/
def IOPRIO_BITS : Nat := 16

/-- IOPRIO_CLASS_SHIFT from ioprio.h. -/
def IOPRIO_CLASS_SHIFT : Nat := 13

/-- IOPRIO_PRIO_MASK from ioprio.h: (1UL << IOPRIO_CLASS_SHIFT) - 1. -/
def IOPRIO_PRIO_MASK : Nat := (1 <<< IOPRIO_CLASS_SHIFT) - 1

/-- IOPRIO_PRIO_CLASS from ioprio.h: (mask) >> IOPRIO_CLASS_SHIFT. -/
def IOPRIO_PRIO_CLASS (mask : Nat) : Nat := mask >>> IOPRIO_CLASS_SHIFT

/-- IOPRIO_PRIO_DATA from ioprio.h: (mask) & IOPRIO_PRIO_MASK. -/
def IOPRIO_PRIO_DATA (mask : Nat) : Nat := mask &&& IOPRIO_PRIO_MASK

/-- IOPRIO_PRIO_VALUE from ioprio.h: ((class) << IOPRIO_CLASS_SHIFT) | data. -/
def IOPRIO_PRIO_VALUE (cls data : Nat) : Nat :=
  (cls <<< IOPRIO_CLASS_SHIFT) ||| data

/-- First enumerator of the anonymous class enum in ioprio.h. -/
def IOPRIO_CLASS_NONE : Nat := 0

/-- Second enumerator of the anonymous class enum in ioprio.h. -/
def IOPRIO_CLASS_RT : Nat := 1

/-- Third enumerator of the anonymous class enum in ioprio.h. -/
def IOPRIO_CLASS_BE : Nat := 2

/-- Fourth enumerator of the anonymous class enum in ioprio.h. -/
def IOPRIO_CLASS_IDLE : Nat := 3

/-- ioprio_valid from ioprio.h: IOPRIO_PRIO_CLASS((mask)) != IOPRIO_CLASS_NONE. -/
def ioprio_valid (mask : Nat) : Bool :=
  decide (IOPRIO_PRIO_CLASS mask ≠ IOPRIO_CLASS_NONE)

/-! Claim-side predicates for the error-code characterisation. -/

/-- Well-formedness of the syscall environment: a failing syscall sets a
nonzero errno, as the kernel guarantees. -/
def env_wf (env : Env) : Prop :=
  (∀ e, env.prctl_result = some e → e ≠ 0) ∧
  (∀ p e, env.open_result p = Except.error e → e ≠ 0) ∧
  (∀ e, Except.error e ∈ env.write_results → e ≠ 0)

/-- One of the error codes the spec lists: EINVAL, ERANGE, EIO, or the
errno set by an underlying failing syscall (prctl, the open of the target
task file, or a write attempt). -/
def listed_error_code (env : Env) (r : Nat) : Prop :=
  r = EINVAL ∨ r = ERANGE ∨ r = EIO ∨
  env.prctl_result = some r ∨
  env.open_result (comm_name_of env.kernel_id) = Except.error r ∨
  Except.error r ∈ env.write_results

/-- The spec's failure conditions for a call: invalid arguments (null name
or null handle), name too long, a failing prctl on the self path, and on
the other-thread path an unopenable target task file, a failing write, or a
partial write. -/
def failure_condition (env : Env) (thread : Nat) (thread_name : Option String)
    (errno : Nat) : Prop :=
  thread = 0 ∨ thread_name = none ∨
  ∃ name, thread_name = some name ∧
    (MAX_TASK_COMM_LEN ≤ name.length ∨
      (name.length < MAX_TASK_COMM_LEN ∧
        ((thread = env.self ∧ env.prctl_result ≠ none) ∨
         (thread ≠ env.self ∧
           ((∃ e, env.open_result (comm_name_of env.kernel_id) = Except.error e) ∨
            (∃ fd, env.open_result (comm_name_of env.kernel_id) = Except.ok fd ∧
              ∃ n errno2 evs,
                write_retry_loop fd name name.length env.write_results errno =
                  some (n, errno2, evs) ∧
                (n < 0 ∨ n.toNat ≠ name.length)))))))

/-! Concrete environments used by the witnesses. -/

/-- Thread 1 renaming; prctl succeeds, open yields fd 3, a single write of
all 0 bytes succeeds. -/
def env_ok : Env :=
  { self := 1, kernel_id := 42, prctl_result := none,
    open_result := fun _ => Except.ok 3, write_results := [Except.ok 0] }

/-- Like env_ok but the single write is short: it writes 1 byte. -/
def env_short : Env :=
  { self := 1, kernel_id := 42, prctl_result := none,
    open_result := fun _ => Except.ok 3, write_results := [Except.ok 1] }

/-- Like env_ok but prctl fails with errno 13 (EACCES). -/
def env_eacces : Env :=
  { self := 1, kernel_id := 42, prctl_result := some 13,
    open_result := fun _ => Except.ok 3, write_results := [Except.ok 0] }

/-- The result of pthread_setname_np env_short 2 (some "ab") 0: a short
write, so EIO, with the errno restored to 0. -/
def cr_short : CallResult :=
  ⟨ EIO, 0, [Event.openFile (comm_name_of env_short.kernel_id) O_RDWR,
             Event.write 3 "ab" 2, Event.close 3]⟩

/-! Helper lemmas: one reduction lemma per control path of the function. -/

/-- Every event of a terminating run of the write-retry loop is the write
of the given bytes and count. -/
theorem wrl_events (fd : Nat) (name : String) (len : Nat)
    (attempts : List (Except Nat Nat)) :
    ∀ (errno : Nat) (n : Int) (errno2 : Nat) (evs : List Event),
      write_retry_loop fd name len attempts errno = some (n, errno2, evs) →
      ∀ ev ∈ evs, ev = Event.write fd name len := by
  induction attempts with
  | nil => intro errno n errno2 evs h; simp [write_retry_loop] at h
  | cons a rest ih =>
    intro errno n errno2 evs h
    cases a with
    | ok m =>
      simp only [write_retry_loop, Option.some_inj, Prod.mk.injEq] at h
      obtain ⟨-, -, rfl⟩ := h
      simp
    | error e =>
      by_cases he : e = EINTR
      · rw [write_retry_loop, if_pos he] at h
        rcases Option.map_eq_some'.mp h with ⟨r, hr, heq⟩
        simp only [Prod.mk.injEq] at heq
        obtain ⟨-, -, rfl⟩ := heq
        intro ev hev
        rcases List.mem_cons.mp hev with rfl | hev2
        · rfl
        · exact ih e r.1 r.2.1 r.2.2 hr ev hev2
      · rw [write_retry_loop, if_neg he] at h
        simp only [Option.some_inj, Prod.mk.injEq] at h
        obtain ⟨-, -, rfl⟩ := h
        simp

/-- If the write-retry loop ends with a negative count, the errno it
reports is the error of one of the write attempts it was given. -/
theorem wrl_error_mem (fd : Nat) (name : String) (len : Nat)
    (attempts : List (Except Nat Nat)) :
    ∀ (errno : Nat) (n : Int) (errno2 : Nat) (evs : List Event),
      write_retry_loop fd name len attempts errno = some (n, errno2, evs) →
      n < 0 → Except.error errno2 ∈ attempts := by
  induction attempts with
  | nil => intro errno n errno2 evs h; simp [write_retry_loop] at h
  | cons a rest ih =>
    intro errno n errno2 evs h hn
    cases a with
    | ok m =>
      simp only [write_retry_loop, Option.some_inj, Prod.mk.injEq] at h
      obtain ⟨rfl, rfl, -⟩ := h
      omega
    | error e =>
      by_cases he : e = EINTR
      · rw [write_retry_loop, if_pos he] at h
        rcases Option.map_eq_some'.mp h with ⟨r, hr, heq⟩
        simp only [Prod.mk.injEq] at heq
        obtain ⟨h1, h2, -⟩ := heq
        have hmem : Except.error r.2.1 ∈ rest :=
          ih e r.1 r.2.1 r.2.2 hr (by omega)
        exact List.mem_cons_of_mem _ (h2 ▸ hmem)
      · rw [write_retry_loop, if_neg he] at h
        simp only [Option.some_inj, Prod.mk.injEq] at h
        obtain ⟨-, rfl, -⟩ := h
        exact List.mem_cons_self _ _

/-- Reduction on the invalid-argument path (lines 48-50). -/
theorem setname_invalid_eq (env : Env) (thread : Nat) (thread_name : Option String)
    (errno : Nat) (h : thread = 0 ∨ thread_name = none) :
    pthread_setname_np env thread thread_name errno = some ⟨ EINVAL, errno, []⟩ := by
  simp only [pthread_setname_np, with_errno_restorer, pthread_setname_np_body]
  rw [if_pos h]
  rfl

/-- Reduction on the name-too-long path (lines 52-55). -/
theorem setname_range_eq (env : Env) (thread : Nat) (name : String) (errno : Nat)
    (hthread : thread ≠ 0) (hlen : MAX_TASK_COMM_LEN ≤ name.length) :
    pthread_setname_np env thread (some name) errno = some ⟨ ERANGE, errno, []⟩ := by
  simp only [pthread_setname_np, with_errno_restorer, pthread_setname_np_body]
  rw [if_neg (by simp [hthread])]
  simp only [Option.getD_some]
  rw [if_pos (by simpa using hlen)]
  rfl

/-- A call with valid arguments and a short enough name proceeds to the
rename code of lines 58-78. -/
theorem setname_after_checks (env : Env) (thread : Nat) (name : String) (errno : Nat)
    (hthread : thread ≠ 0) (hlen : name.length < MAX_TASK_COMM_LEN) :
    pthread_setname_np env thread (some name) errno =
      with_errno_restorer errno (do_rename env thread name) := by
  simp only [pthread_setname_np, with_errno_restorer, pthread_setname_np_body]
  rw [if_neg (by simp [hthread])]
  simp only [Option.getD_some]
  rw [if_neg (by simpa using Nat.not_le.mpr hlen)]

/-- Reduction on the self path when prctl succeeds (lines 58-60). -/
theorem setname_self_ok_eq (env : Env) (thread : Nat) (name : String) (errno : Nat)
    (hthread : thread ≠ 0) (hself : thread = env.self)
    (hlen : name.length < MAX_TASK_COMM_LEN) (hp : env.prctl_result = none) :
    pthread_setname_np env thread (some name) errno =
      some ⟨0, errno, [Event.prctl PR_SET_NAME name]⟩ := by
  rw [setname_after_checks env thread name errno hthread hlen]
  simp only [with_errno_restorer, do_rename]
  rw [if_pos hself, hp]
  rfl

/-- Reduction on the self path when prctl fails with errno e. -/
theorem setname_self_fail_eq (env : Env) (thread : Nat) (name : String) (errno e : Nat)
    (hthread : thread ≠ 0) (hself : thread = env.self)
    (hlen : name.length < MAX_TASK_COMM_LEN) (hp : env.prctl_result = some e) :
    pthread_setname_np env thread (some name) errno =
      some ⟨e, errno, [Event.prctl PR_SET_NAME name]⟩ := by
  rw [setname_after_checks env thread name errno hthread hlen]
  simp only [with_errno_restorer, do_rename]
  rw [if_pos hself, hp]
  rfl

/-- Reduction on the other-thread path when the open fails (lines 66-69). -/
theorem setname_open_fail_eq (env : Env) (thread : Nat) (name : String) (errno e : Nat)
    (hthread : thread ≠ 0) (hns : thread ≠ env.self)
    (hlen : name.length < MAX_TASK_COMM_LEN)
    (hopen : env.open_result (comm_name_of env.kernel_id) = Except.error e) :
    pthread_setname_np env thread (some name) errno =
      some ⟨e, errno, [Event.openFile (comm_name_of env.kernel_id) O_RDWR]⟩ := by
  rw [setname_after_checks env thread name errno hthread hlen]
  simp only [with_errno_restorer, do_rename]
  rw [if_neg hns, hopen]
  rfl

/-- Reduction on the other-thread path when the open succeeds and the write
loop terminates (lines 70-78): the return value is errno2 on a failed
write, EIO on a short write, else 0. -/
theorem setname_write_eq (env : Env) (thread : Nat) (name : String) (errno fd : Nat)
    (n : Int) (errno2 : Nat) (wevents : List Event)
    (hthread : thread ≠ 0) (hns : thread ≠ env.self)
    (hlen : name.length < MAX_TASK_COMM_LEN)
    (hopen : env.open_result (comm_name_of env.kernel_id) = Except.ok fd)
    (hw : write_retry_loop fd name name.length env.write_results errno =
      some (n, errno2, wevents)) :
    pthread_setname_np env thread (some name) errno =
      some ⟨if n < 0 then errno2 else if n.toNat ≠ name.length then EIO else 0,
        errno,
        Event.openFile (comm_name_of env.kernel_id) O_RDWR ::
          (wevents ++ [Event.close fd])⟩ := by
  rw [setname_after_checks env thread name errno hthread hlen]
  simp only [with_errno_restorer, do_rename]
  rw [if_neg hns, hopen]
  dsimp only
  rw [hw]
  dsimp only
  by_cases hn : n < 0
  · rw [if_pos hn, if_pos hn]
    rfl
  · rw [if_neg hn, if_neg hn]
    by_cases hne : n.toNat ≠ name.length
    · rw [if_pos hne, if_pos hne]
      rfl
    · rw [if_neg hne, if_neg hne]
      rfl

/-- If the modelled write loop is not given enough outcomes to stop, the
embedded call has no modelled result. -/
theorem setname_write_none_eq (env : Env) (thread : Nat) (name : String)
    (errno fd : Nat)
    (hthread : thread ≠ 0) (hns : thread ≠ env.self)
    (hlen : name.length < MAX_TASK_COMM_LEN)
    (hopen : env.open_result (comm_name_of env.kernel_id) = Except.ok fd)
    (hw : write_retry_loop fd name name.length env.write_results errno = none) :
    pthread_setname_np env thread (some name) errno = none := by
  rw [setname_after_checks env thread name errno hthread hlen]
  simp only [with_errno_restorer, do_rename]
  rw [if_neg hns, hopen]
  dsimp only
  rw [hw]
  rfl

/-- IOPRIO_PRIO_VALUE is addition of the shifted class and small data. -/
theorem ioprio_value_eq (cls data : Nat) (hd : data < 2 ^ IOPRIO_CLASS_SHIFT) :
    IOPRIO_PRIO_VALUE cls data = 2 ^ IOPRIO_CLASS_SHIFT * cls + data := by
  unfold IOPRIO_PRIO_VALUE
  rw [Nat.shiftLeft_eq, Nat.mul_comm]
  exact (Nat.mul_add_lt_is_or hd cls).symm

end Bionic

namespace Bionic

/-! The claims. -/

/-- Claim C1: with a non-null thread handle and non-null name, a name whose
length (excluding the terminator) is MAX_TASK_COMM_LEN = 16 or more makes
pthread_setname_np return ERANGE with an empty syscall trace (no rename is
attempted), and every name of length strictly under 16 passes the length
check, i.e. the call proceeds to the rename code. -/
theorem pthread_setname_np_length_check (env : Env) (thread : Nat) (name : String)
    (errno : Nat) (hthread : thread ≠ 0) :
    (MAX_TASK_COMM_LEN ≤ name.length →
      pthread_setname_np env thread (some name) errno = some ⟨ ERANGE, errno, []⟩) ∧
    (name.length < MAX_TASK_COMM_LEN →
      pthread_setname_np env thread (some name) errno =
        with_errno_restorer errno (do_rename env thread name)) :=
  ⟨fun hlen => setname_range_eq env thread name errno hthread hlen,
   fun hlen => setname_after_checks env thread name errno hthread hlen⟩

/-- Witness for C1 at names of length 16 and 5. -/
theorem pthread_setname_np_length_check_witness :
    pthread_setname_np env_ok 2 (some "sixteenbytenames") 0 =
      some ⟨ ERANGE, 0, []⟩ ∧
    pthread_setname_np env_ok 2 (some "short") 0 =
      with_errno_restorer 0 (do_rename env_ok 2 "short") :=
  ⟨(pthread_setname_np_length_check env_ok 2 "sixteenbytenames" 0 (by decide)).1
      (by decide),
   (pthread_setname_np_length_check env_ok 2 "short" 0 (by decide)).2 (by decide)⟩

/-- Claim C2: a call with thread handle 0 or a NULL name returns EINVAL with
an empty syscall trace: no prctl, no open, no write. -/
theorem pthread_setname_np_null_args (env : Env) (thread : Nat)
    (thread_name : Option String) (errno : Nat)
    (h : thread = 0 ∨ thread_name = none) :
    pthread_setname_np env thread thread_name errno = some ⟨ EINVAL, errno, []⟩ :=
  setname_invalid_eq env thread thread_name errno h

/-- Witness for C2 at a zero handle and at a NULL name. -/
theorem pthread_setname_np_null_args_witness :
    pthread_setname_np env_ok 0 (some "x") 7 = some ⟨ EINVAL, 7, []⟩ ∧
    pthread_setname_np env_ok 2 none 7 = some ⟨ EINVAL, 7, []⟩ :=
  ⟨pthread_setname_np_null_args env_ok 0 (some "x") 7 (Or.inl rfl),
   pthread_setname_np_null_args env_ok 2 none 7 (Or.inr rfl)⟩

/-- Claim C3: past the argument and length checks, a call whose handle is
the calling thread's own handle issues exactly one syscall, the prctl
PR_SET_NAME with the name (no /proc file is opened), and returns 0 if prctl
succeeds or the errno set by prctl if it fails. -/
theorem pthread_setname_np_self_prctl (env : Env) (thread : Nat) (name : String)
    (errno : Nat) (hthread : thread ≠ 0) (hself : thread = env.self)
    (hlen : name.length < MAX_TASK_COMM_LEN) :
    (env.prctl_result = none →
      pthread_setname_np env thread (some name) errno =
        some ⟨0, errno, [Event.prctl PR_SET_NAME name]⟩) ∧
    (∀ e, env.prctl_result = some e →
      pthread_setname_np env thread (some name) errno =
        some ⟨e, errno, [Event.prctl PR_SET_NAME name]⟩) :=
  ⟨fun hp => setname_self_ok_eq env thread name errno hthread hself hlen hp,
   fun e hp => setname_self_fail_eq env thread name errno e hthread hself hlen hp⟩

/-- Witness for C3: a successful prctl and one failing with errno 13. -/
theorem pthread_setname_np_self_prctl_witness :
    pthread_setname_np env_ok 1 (some "worker") 0 =
      some ⟨0, 0, [Event.prctl PR_SET_NAME "worker"]⟩ ∧
    pthread_setname_np env_eacces 1 (some "worker") 0 =
      some ⟨13, 0, [Event.prctl PR_SET_NAME "worker"]⟩ :=
  ⟨(pthread_setname_np_self_prctl env_ok 1 "worker" 0 (by decide) rfl
      (by decide)).1 rfl,
   (pthread_setname_np_self_prctl env_eacces 1 "worker" 0 (by decide) rfl
      (by decide)).2 13 rfl⟩

/-- Claim C4: on the other-thread path, if the write loop ends with a
non-negative byte count different from the name's length (a short write),
the function returns EIO. -/
theorem pthread_setname_np_short_write (env : Env) (thread : Nat) (name : String)
    (errno fd : Nat) (n : Int) (errno2 : Nat) (wevents : List Event)
    (hthread : thread ≠ 0) (hns : thread ≠ env.self)
    (hlen : name.length < MAX_TASK_COMM_LEN)
    (hopen : env.open_result (comm_name_of env.kernel_id) = Except.ok fd)
    (hw : write_retry_loop fd name name.length env.write_results errno =
      some (n, errno2, wevents))
    (hn : 0 ≤ n) (hne : n.toNat ≠ name.length) :
    pthread_setname_np env thread (some name) errno =
      some ⟨ EIO, errno,
        Event.openFile (comm_name_of env.kernel_id) O_RDWR ::
          (wevents ++ [Event.close fd])⟩ := by
  rw [setname_write_eq env thread name errno fd n errno2 wevents hthread hns hlen
    hopen hw]
  rw [if_neg (by omega), if_pos hne]

/-- Witness for C4: a 2-byte name of which only 1 byte is written. -/
theorem pthread_setname_np_short_write_witness :
    pthread_setname_np env_short 2 (some "ab") 0 =
      some ⟨ EIO, 0,
        Event.openFile (comm_name_of env_short.kernel_id) O_RDWR ::
          ([Event.write 3 "ab" 2] ++ [Event.close 3])⟩ :=
  pthread_setname_np_short_write env_short 2 "ab" 0 3 1 0 [Event.write 3 "ab" 2]
    (by decide) (by decide) (by decide) rfl rfl (by decide) (by decide)

/-- Claim C5: whenever the call has a modelled result, its return value is
delivered synchronously as a plain integer: 0, or one of EINVAL, ERANGE,
EIO, or the errno of the underlying failing syscall (prctl, the open of the
target task file, or a write); and, whenever failing syscalls report
nonzero errno values (env_wf), the return value is nonzero exactly when one
of the spec's failure conditions occurs. -/
theorem pthread_setname_np_error_codes (env : Env) (thread : Nat)
    (thread_name : Option String) (errno : Nat) (res : CallResult)
    (hwf : env_wf env)
    (hres : pthread_setname_np env thread thread_name errno = some res) :
    (res.ret = 0 ∨ listed_error_code env res.ret) ∧
    (res.ret ≠ 0 ↔ failure_condition env thread thread_name errno) := by
  obtain ⟨hwfp, hwfo, hwfw⟩ := hwf
  by_cases h0 : thread = 0 ∨ thread_name = none
  · rw [setname_invalid_eq env thread thread_name errno h0] at hres
    obtain rfl := Option.some_inj.mp hres
    refine ⟨Or.inr (Or.inl rfl), ?_, fun _ => by simp [ EINVAL]⟩
    intro _
    unfold failure_condition
    rcases h0 with h1 | h1
    · exact Or.inl h1
    · exact Or.inr (Or.inl h1)
  · push_neg at h0
    obtain ⟨hthread, hname⟩ := h0
    obtain ⟨name, rfl⟩ := Option.ne_none_iff_exists'.mp hname
    by_cases hlen : MAX_TASK_COMM_LEN ≤ name.length
    · rw [setname_range_eq env thread name errno hthread hlen] at hres
      obtain rfl := Option.some_inj.mp hres
      exact ⟨Or.inr (Or.inr (Or.inl rfl)),
        fun _ => Or.inr (Or.inr ⟨name, rfl, Or.inl hlen⟩),
        fun _ => by simp [ ERANGE]⟩
    · push_neg at hlen
      by_cases hself : thread = env.self
      · cases hp : env.prctl_result with
        | none =>
          rw [setname_self_ok_eq env thread name errno hthread hself hlen hp] at hres
          obtain rfl := Option.some_inj.mp hres
          have hnf : ¬ failure_condition env thread (some name) errno := by
            intro hf
            rcases hf with h1 | h1 | ⟨name2, heq, h1⟩
            · exact hthread h1
            · exact Option.some_ne_none _ h1
            · obtain rfl := Option.some_inj.mp heq
              rcases h1 with h2 | ⟨-, h2⟩
              · omega
              · rcases h2 with ⟨-, hpn⟩ | ⟨hns, -⟩
                · exact hpn hp
                · exact hns hself
          exact ⟨Or.inl rfl, fun hr => absurd rfl hr, fun hf => absurd hf hnf⟩
        | some e =>
          rw [setname_self_fail_eq env thread name errno e hthread hself hlen hp]
            at hres
          obtain rfl := Option.some_inj.mp hres
          refine ⟨Or.inr (Or.inr (Or.inr (Or.inr (Or.inl hp)))), ?_, ?_⟩
          · intro _
            exact Or.inr (Or.inr ⟨name, rfl, Or.inr ⟨hlen,
              Or.inl ⟨hself, by simp [hp]⟩⟩⟩)
          · intro _
            exact hwfp e hp
      · cases hopen : env.open_result (comm_name_of env.kernel_id) with
        | error e =>
          rw [setname_open_fail_eq env thread name errno e hthread hself hlen hopen]
            at hres
          obtain rfl := Option.some_inj.mp hres
          refine ⟨Or.inr (Or.inr (Or.inr (Or.inr (Or.inr (Or.inl hopen))))), ?_, ?_⟩
          · intro _
            exact Or.inr (Or.inr ⟨name, rfl, Or.inr ⟨hlen,
              Or.inr ⟨hself, Or.inl ⟨e, hopen⟩⟩⟩⟩)
          · intro _
            exact hwfo _ e hopen
        | ok fd =>
          cases hw : write_retry_loop fd name name.length env.write_results errno with
          | none =>
            rw [setname_write_none_eq env thread name errno fd hthread hself hlen
              hopen hw] at hres
            exact absurd hres (by simp)
          | some t =>
            obtain ⟨n, errno2, wevents⟩ := t
            rw [setname_write_eq env thread name errno fd n errno2 wevents hthread
              hself hlen hopen hw] at hres
            obtain rfl := Option.some_inj.mp hres
            by_cases hn : n < 0
            · have hmem : Except.error errno2 ∈ env.write_results :=
                wrl_error_mem fd name name.length env.write_results errno n errno2
                  wevents hw hn
              refine ⟨?_, ?_, ?_⟩
              · rw [if_pos hn]
                exact Or.inr (Or.inr (Or.inr (Or.inr (Or.inr (Or.inr hmem)))))
              · intro _
                exact Or.inr (Or.inr ⟨name, rfl, Or.inr ⟨hlen, Or.inr ⟨hself,
                  Or.inr ⟨fd, hopen, n, errno2, wevents, hw, Or.inl hn⟩⟩⟩⟩)
              · intro _
                rw [if_pos hn]
                exact hwfw errno2 hmem
            · by_cases hne : n.toNat ≠ name.length
              · refine ⟨?_, ?_, ?_⟩
                · rw [if_neg hn, if_pos hne]
                  exact Or.inr (Or.inr (Or.inr (Or.inl rfl)))
                · intro _
                  exact Or.inr (Or.inr ⟨name, rfl, Or.inr ⟨hlen, Or.inr ⟨hself,
                    Or.inr ⟨fd, hopen, n, errno2, wevents, hw, Or.inr hne⟩⟩⟩⟩)
                · intro _
                  rw [if_neg hn, if_pos hne]
                  simp [ EIO]
              · have hnf : ¬ failure_condition env thread (some name) errno := by
                  intro hf
                  rcases hf with h1 | h1 | ⟨name2, heq, h1⟩
                  · exact hthread h1
                  · exact Option.some_ne_none _ h1
                  · obtain rfl := Option.some_inj.mp heq
                    rcases h1 with h2 | ⟨-, h2⟩
                    · omega
                    · rcases h2 with ⟨hs, -⟩ | ⟨-, h3⟩
                      · exact hself hs
                      · rcases h3 with ⟨e, he⟩ |
                          ⟨fd2, hopen2, n2, errno22, evs2, hw2, hbad⟩
                        · rw [hopen] at he
                          exact absurd he (by simp)
                        · rw [hopen] at hopen2
                          have hfd : fd = fd2 := by injection hopen2
                          subst hfd
                          have hsame := hw.symm.trans hw2
                          simp only [Option.some_inj, Prod.mk.injEq] at hsame
                          obtain ⟨h4, h5, h6⟩ := hsame
                          subst h4
                          subst h5
                          subst h6
                          rcases hbad with hb | hb
                          · exact hn hb
                          · exact hne hb
                refine ⟨Or.inl ?_, ?_, fun hf => absurd hf hnf⟩
                · dsimp only
                  rw [if_neg hn, if_neg hne]
                · dsimp only
                  rw [if_neg hn, if_neg hne]
                  intro hr
                  exact absurd rfl hr

/-- Witness for C5 at the short-write run of env_short. -/
theorem pthread_setname_np_error_codes_witness :
    (cr_short.ret = 0 ∨ listed_error_code env_short cr_short.ret) ∧
    (cr_short.ret ≠ 0 ↔ failure_condition env_short 2 (some "ab") 0) :=
  pthread_setname_np_error_codes env_short 2 (some "ab") 0 cr_short
    (by refine ⟨?_, ?_, ?_⟩ <;> · intro a b; try intro c; simp_all [env_short])
    rfl

end Bionic

namespace Bionic

/-- Claim C6: in the retry loop around the write, an attempt that fails
with EINTR is retried (the loop continues on the remaining outcomes, with
one more write issued), an attempt that fails with any other errno is never
retried (the loop stops at once, having issued exactly one more write), and
a successful attempt ends the loop. -/
theorem write_retry_eintr_only (fd : Nat) (name : String) (len errno e n : Nat)
    (rest : List (Except Nat Nat)) :
    (write_retry_loop fd name len (Except.error EINTR :: rest) errno =
      (write_retry_loop fd name len rest EINTR).map
        (fun r => (r.1, r.2.1, Event.write fd name len :: r.2.2))) ∧
    (e ≠ EINTR →
      write_retry_loop fd name len (Except.error e :: rest) errno =
        some (-1, e, [Event.write fd name len])) ∧
    (write_retry_loop fd name len (Except.ok n :: rest) errno =
      some ((n : Int), errno, [Event.write fd name len])) := by
  refine ⟨?_, ?_, ?_⟩
  · rw [write_retry_loop, if_pos rfl]
  · intro he
    rw [write_retry_loop, if_neg he]
  · rfl

/-- Witness for C6: an EINTR is retried and then succeeds; an EBADF (9) is
not retried even with outcomes left. -/
theorem write_retry_eintr_only_witness :
    write_retry_loop 3 "ab" 2 (Except.error EINTR :: [Except.ok 2]) 0 =
      (write_retry_loop 3 "ab" 2 [Except.ok 2] EINTR).map
        (fun r => (r.1, r.2.1, Event.write 3 "ab" 2 :: r.2.2)) ∧
    write_retry_loop 3 "ab" 2 (Except.error 9 :: [Except.ok 2]) 0 =
      some (-1, 9, [Event.write 3 "ab" 2]) ∧
    write_retry_loop 3 "ab" 2 (Except.ok 2 :: []) 0 =
      some (2, 0, [Event.write 3 "ab" 2]) :=
  ⟨(write_retry_eintr_only 3 "ab" 2 0 9 2 [Except.ok 2]).1,
   (write_retry_eintr_only 3 "ab" 2 0 9 2 [Except.ok 2]).2.1 (by decide),
   (write_retry_eintr_only 3 "ab" 2 0 9 2 []).2.2⟩

/-- Claim C7: on the other-thread path, the only file opened is
comm_name_of kernel_id (the task's comm entry), opened read-write, and
every write in the trace writes the name bytes with count strlen(name). -/
theorem pthread_setname_np_comm_file_only (env : Env) (thread : Nat)
    (name : String) (errno : Nat) (res : CallResult)
    (hthread : thread ≠ 0) (hns : thread ≠ env.self)
    (hlen : name.length < MAX_TASK_COMM_LEN)
    (hres : pthread_setname_np env thread (some name) errno = some res) :
    res.events.filter Event.isOpen =
      [Event.openFile (comm_name_of env.kernel_id) O_RDWR] ∧
    (∀ ev ∈ res.events, ∀ fd2 b c, ev = Event.write fd2 b c →
      b = name ∧ c = name.length) := by
  cases hopen : env.open_result (comm_name_of env.kernel_id) with
  | error e =>
    rw [setname_open_fail_eq env thread name errno e hthread hns hlen hopen] at hres
    obtain rfl := Option.some_inj.mp hres
    refine ⟨rfl, ?_⟩
    intro ev hev fd2 b c hev2
    simp only [List.mem_singleton] at hev
    subst hev
    exact absurd hev2 (by simp)
  | ok fd =>
    cases hw : write_retry_loop fd name name.length env.write_results errno with
    | none =>
      rw [setname_write_none_eq env thread name errno fd hthread hns hlen hopen hw]
        at hres
      exact absurd hres (by simp)
    | some t =>
      obtain ⟨n, errno2, wevents⟩ := t
      rw [setname_write_eq env thread name errno fd n errno2 wevents hthread hns
        hlen hopen hw] at hres
      obtain rfl := Option.some_inj.mp hres
      have hall := wrl_events fd name name.length env.write_results errno n errno2
        wevents hw
      constructor
      · dsimp only
        simp only [List.filter_cons, List.filter_append]
        have hwf2 : wevents.filter Event.isOpen = [] := by
          rw [List.filter_eq_nil_iff]
          intro ev hev
          rw [hall ev hev]
          simp [Event.isOpen]
        rw [hwf2]
        rfl
      · dsimp only
        intro ev hev fd2 b c hev2
        rcases List.mem_cons.mp hev with rfl | hev3
        · exact absurd hev2 (by simp)
        rcases List.mem_append.mp hev3 with hev4 | hev5
        · rw [hall ev hev4] at hev2
          injection hev2 with h1 h2 h3
          exact ⟨h2.symm, h3.symm⟩
        · simp only [List.mem_singleton] at hev5
          subst hev5
          exact absurd hev2 (by simp)

/-- Witness for C7 at the short-write run of env_short. -/
theorem pthread_setname_np_comm_file_only_witness :
    cr_short.events.filter Event.isOpen =
      [Event.openFile (comm_name_of env_short.kernel_id) O_RDWR] ∧
    (∀ ev ∈ cr_short.events, ∀ fd2 b c, ev = Event.write fd2 b c →
      b = "ab" ∧ c = ("ab" : String).length) :=
  pthread_setname_np_comm_file_only env_short 2 "ab" 0 cr_short
    (by decide) (by decide) (by decide) rfl

/-- Claim C8: whatever the outcome, the ErrnoRestorer makes the function
leave the caller-visible errno exactly as it was on entry; the error is
conveyed only through the return value. -/
theorem pthread_setname_np_errno_preserved (env : Env) (thread : Nat)
    (thread_name : Option String) (errno : Nat) (res : CallResult)
    (h : pthread_setname_np env thread thread_name errno = some res) :
    res.errno = errno := by
  unfold pthread_setname_np with_errno_restorer at h
  rcases Option.map_eq_some'.mp h with ⟨r, _, hr⟩
  rw [← hr]

/-- Witness for C8 at the short-write run of env_short, entered with
errno 0. -/
theorem pthread_setname_np_errno_preserved_witness : cr_short.errno = 0 :=
  pthread_setname_np_errno_preserved env_short 2 (some "ab") 0 cr_short rfl

/-- Claim C9: the empty name is not rejected: it passes the null and length
checks, and on the other-thread path a zero-byte write returning 0 counts
as complete, so the call returns 0 (success). -/
theorem pthread_setname_np_empty_name (env : Env) (thread : Nat) (errno fd : Nat)
    (hthread : thread ≠ 0) (hns : thread ≠ env.self)
    (hopen : env.open_result (comm_name_of env.kernel_id) = Except.ok fd)
    (hw : env.write_results = [Except.ok 0]) :
    pthread_setname_np env thread (some "") errno =
      some ⟨0, errno, [Event.openFile (comm_name_of env.kernel_id) O_RDWR,
                       Event.write fd "" 0, Event.close fd]⟩ := by
  simp only [pthread_setname_np, with_errno_restorer, pthread_setname_np_body,
    do_rename]
  rw [if_neg (by simp [hthread])]
  simp only [Option.getD_some]
  rw [if_neg (by simp [MAX_TASK_COMM_LEN]), if_neg hns, hopen, hw]
  rfl

/-- Witness for C9: renaming thread 2 to the empty string in env_ok. -/
theorem pthread_setname_np_empty_name_witness :
    pthread_setname_np env_ok 2 (some "") 0 =
      some ⟨0, 0, [Event.openFile (comm_name_of env_ok.kernel_id) O_RDWR,
                   Event.write 3 "" 0, Event.close 3]⟩ :=
  pthread_setname_np_empty_name env_ok 2 0 3 (by decide) (by decide) rfl rfl

/-- Claim C10: for every class value and every data value under 2^13, the
ioprio macros round-trip: IOPRIO_PRIO_CLASS recovers the class,
IOPRIO_PRIO_DATA recovers the data, and ioprio_valid holds on the packed
value exactly when the class is not IOPRIO_CLASS_NONE. -/
theorem ioprio_macros_roundtrip (cls data : Nat)
    (hd : data < 2 ^ IOPRIO_CLASS_SHIFT) :
    IOPRIO_PRIO_CLASS (IOPRIO_PRIO_VALUE cls data) = cls ∧
    IOPRIO_PRIO_DATA (IOPRIO_PRIO_VALUE cls data) = data ∧
    (ioprio_valid (IOPRIO_PRIO_VALUE cls data) = true ↔
      cls ≠ IOPRIO_CLASS_NONE) := by
  have hclass : IOPRIO_PRIO_CLASS (IOPRIO_PRIO_VALUE cls data) = cls := by
    unfold IOPRIO_PRIO_CLASS
    rw [ioprio_value_eq cls data hd, Nat.shiftRight_eq_div_pow,
      Nat.mul_add_div (Nat.two_pow_pos _), Nat.div_eq_of_lt hd]
    exact Nat.add_zero cls
  refine ⟨hclass, ?_, ?_⟩
  · unfold IOPRIO_PRIO_DATA IOPRIO_PRIO_MASK
    rw [ioprio_value_eq cls data hd, Nat.shiftLeft_eq, Nat.one_mul,
      Nat.and_pow_two_sub_one_eq_mod, Nat.mul_add_mod, Nat.mod_eq_of_lt hd]
  · unfold ioprio_valid
    rw [hclass]
    exact decide_eq_true_iff

/-- Witness for C10 at class IOPRIO_CLASS_BE and data 7. -/
theorem ioprio_macros_roundtrip_witness :
    IOPRIO_PRIO_CLASS (IOPRIO_PRIO_VALUE IOPRIO_CLASS_BE 7) = IOPRIO_CLASS_BE ∧
    IOPRIO_PRIO_DATA (IOPRIO_PRIO_VALUE IOPRIO_CLASS_BE 7) = 7 ∧
    (ioprio_valid (IOPRIO_PRIO_VALUE IOPRIO_CLASS_BE 7) = true ↔
      IOPRIO_CLASS_BE ≠ IOPRIO_CLASS_NONE) :=
  ioprio_macros_roundtrip IOPRIO_CLASS_BE 7 (by decide)

end Bionic
